import Mathlib

/-!
Shallow embedding of the memoization polyfill in `src/polyfill.js`
(proposal-function-memoize).  JavaScript values are modelled by `JSVal`;
object identity is an address (`Nat`), and garbage collection is modelled
by a liveness predicate on addresses: a `WeakRef` to a dead address
dereferences to `undefined`, exactly as `WeakRef.prototype.deref` does.
The cache tree (`createNode`, `getNode`, `getValueAt`, `setValueAt`), the
key resolution of the wrapper closure, the options parsing of
`Function.memoize`, the memory-observer callback and `flushCaches` are
each translated from the corresponding source function.
-/

set_option autoImplicit false

namespace Memoize

/-- JavaScript values as used by the polyfill: the primitives `undefined`,
`null`, booleans, numbers (modelled as integers; no NaN/float subtleties
are relied on by any claim), strings, plus reference values: plain objects
and functions, both identified by a heap address. -/
inductive JSVal : Type where
  | undefined : JSVal
  | null : JSVal
  | bool : Bool → JSVal
  | num : Int → JSVal
  | str : String → JSVal
  | obj : Nat → JSVal
  | func : Nat → JSVal
  deriving DecidableEq

/-- Result of the JavaScript `typeof` operator on a `JSVal`
(note `typeof null = "object"` and `typeof f = "function"` for functions). -/
def typeof : JSVal → String
  | JSVal.undefined => "undefined"
  | JSVal.null => "object"
  | JSVal.bool _ => "boolean"
  | JSVal.num _ => "number"
  | JSVal.str _ => "string"
  | JSVal.obj _ => "object"
  | JSVal.func _ => "function"

/-- ECMAScript primitive values: everything except objects and functions. -/
def isPrimitive : JSVal → Bool
  | JSVal.obj _ => false
  | JSVal.func _ => false
  | _ => true

/-- Source `isNonNullObject` (polyfill.js lines 75-77):
`o !== null && typeof o === "object"`. -/
def isNonNullObject (o : JSVal) : Bool :=
  !(o == JSVal.null) && (typeof o == "object")

/-- Garbage-collection state: which heap addresses are still alive. -/
abbrev Liveness := Nat → Bool

/-- The liveness in which nothing has been reclaimed. -/
def allLive : Liveness := fun _ => true

/-- A map key or value slot as stored in a node: either a value stored
directly, or a `WeakRef` to an object address (`new WeakRef(key)` in the
source). -/
inductive Slot : Type where
  | prim : JSVal → Slot
  | weak : Nat → Slot
  deriving DecidableEq

/-- Dereference a slot the way `getNode` and `getValueAt` do:
`isWeakRef(k) ? k.deref() : k`.  A dead `WeakRef` dereferences to
`undefined`. -/
def derefSlot (L : Liveness) : Slot → JSVal
  | Slot.prim v => v
  | Slot.weak a => if L a then JSVal.obj a else JSVal.undefined

/-- The boxing applied by `setValueAt` to both keys and values:
`isNonNullObject(x) ? new WeakRef(x) : x` (polyfill.js lines 122-124
and 132).  Only non-null objects carry an address, so the weak branch
extracts it by pattern match. -/
def boxJS (v : JSVal) : Slot :=
  if isNonNullObject v then
    match v with
    | JSVal.obj a => Slot.weak a
    | w => Slot.prim w
  else Slot.prim v

/-- A cache tree node (source `createNode`, lines 79-85): a keyed
collection of child nodes in insertion order, plus a value slot that is
either empty (the private `NO_VALUE` sentinel, modelled as `none`) or a
stored slot. -/
inductive Node : Type where
  | mk : List (Slot × Node) → Option Slot → Node

/-- The child collection of a node (insertion-ordered, as a JS `Map`). -/
def Node.cache : Node → List (Slot × Node)
  | Node.mk c _ => c

/-- The value slot of a node (`none` models the `NO_VALUE` symbol). -/
def Node.value : Node → Option Slot
  | Node.mk _ v => v

/-- Source `createNode`: `{ cache: new Map(), value: NO_VALUE }`. -/
def createNode : Node := Node.mk [] none

/-- Scan of a node's entries in insertion order, dereferencing weak keys
and testing `compare(_key, key)`: the body of the `for ... of
node.cache.entries()` loop in `getNode` (lines 87-95). -/
def findChild (L : Liveness) (compare : JSVal → JSVal → Bool) (key : JSVal) :
    List (Slot × Node) → Option Node
  | [] => none
  | (s, n) :: rest =>
    if compare (derefSlot L s) key then some n else findChild L compare key rest

/-- Source `getNode(node, key, compare)`: first entry of `node.cache`
whose (dereferenced) key satisfies `compare`, else `null`. -/
def getNode (L : Liveness) (node : Node) (key : JSVal)
    (compare : JSVal → JSVal → Bool) : Option Node :=
  findChild L compare key node.cache

/-- Source `getValueAt(node, compare, ...keys)` (lines 97-110): walk the
key path with `getNode`; `null` at any level means `NO_VALUE` (`none`).
At the leaf, unbox: `isWeakRef(v) ? v.deref() : v` — note that a dead
weak value dereferences to `undefined`, which is returned as
`some JSVal.undefined`, not as `none`. -/
def getValueAt (L : Liveness) (compare : JSVal → JSVal → Bool) :
    List JSVal → Node → Option JSVal
  | [], n => n.value.map (derefSlot L)
  | k :: ks, n =>
    match getNode L n k compare with
    | none => none
    | some n2 => getValueAt L compare ks n2

/-- Functional rendering of the in-place update inside `setValueAt`: the
source finds the first entry of the map matching the key (via `getNode`)
and then mutates that entry's node through the shared reference; here the
matched entry's node is replaced by `f` of itself, every other entry kept.
Returns `none` when no entry matches (the `nextNode === null` branch). -/
def replaceFirst (L : Liveness) (compare : JSVal → JSVal → Bool) (key : JSVal)
    (f : Node → Node) : List (Slot × Node) → Option (List (Slot × Node))
  | [] => none
  | (s, n) :: rest =>
    if compare (derefSlot L s) key then some ((s, f n) :: rest)
    else (replaceFirst L compare key f rest).map (fun r => (s, n) :: r)

/-- Source `setValueAt(node, compare, value, ...keys)` (lines 112-133):
traverse to the leaf, creating (and appending, as `Map.set` does for a
fresh key) a node keyed by the boxed key wherever no entry matches; at
the leaf set `value` boxed by the `isNonNullObject` test.  The
`registry.register` call only drives lazy pruning and has no effect on
the cache contents. -/
def setValueAt (L : Liveness) (compare : JSVal → JSVal → Bool) (value : JSVal) :
    List JSVal → Node → Node
  | [] => fun n => Node.mk n.cache (some (boxJS value))
  | k :: ks => fun n =>
    match replaceFirst L compare k (setValueAt L compare value ks) n.cache with
    | some cache2 => Node.mk cache2 n.value
    | none =>
      Node.mk (n.cache ++ [(boxJS k, setValueAt L compare value ks createNode)]) n.value

/-- Source `referenitalEquality(a, b) { return a === b; }` — in the model,
`===` is decidable equality of `JSVal` (object values compare by
address, i.e. by reference). -/
def referenitalEquality (a b : JSVal) : Bool := a == b

/-- The configuration a wrapper closes over after `Function.memoize`
parsed its options (lines 141-147): `hash` and `select` are the user
functions or `null`; `compare` defaults to `referenitalEquality`.
User functions are variadic, so they receive the list of their call
arguments; `select` returns a single (iterable) value. -/
structure Config : Type where
  hash : Option (List JSVal → JSVal)
  select : Option (List JSVal → JSVal)
  compare : JSVal → JSVal → Bool

/-- The default configuration: `Function.memoize(fn)` with no options. -/
def defaultConfig : Config := Config.mk none none referenitalEquality

/-- Source key resolution in the wrapper (lines 152-159):
`hash && select ? [hash(select(...arguments))] : hash ? [hash(...arguments)]
: select ? select(...arguments) : arguments`.  `elems` is the host's
iterable spreading (`...keys`), which turns the value returned by
`select` into the list of key-path elements; the raw `arguments` spread
is the argument list itself. -/
def resolveKeys (elems : JSVal → List JSVal) (cfg : Config)
    (args : List JSVal) : List JSVal :=
  match cfg.hash, cfg.select with
  | some h, some s => [h [s args]]
  | some h, none => [h args]
  | none, some s => elems (s args)
  | none, none => args

/-- A raw `options.<field>` as seen by the `typeof` tests in
`Function.memoize`: absent, a function, or some non-function value. -/
inductive OptField (α : Type) : Type where
  | absent : OptField α
  | jsFunction : α → OptField α
  | notAFunction : JSVal → OptField α

/-- The raw `options` object passed to `Function.memoize`. -/
structure RawOptions : Type where
  hash : OptField (List JSVal → JSVal)
  select : OptField (List JSVal → JSVal)
  compare : OptField (JSVal → JSVal → Bool)

/-- Options parsing in `Function.memoize` (lines 139-147): each of
`hash`/`select` is kept only when `opts && typeof opts.x === "function"`,
else `null`; `compare` falls back to `referenitalEquality`.  The source
body contains no throw path, so the parse is a total function. -/
def memoizeConfig : Option RawOptions → Config
  | none => Config.mk none none referenitalEquality
  | some o =>
    Config.mk
      (match o.hash with
        | OptField.jsFunction f => some f
        | _ => none)
      (match o.select with
        | OptField.jsFunction f => some f
        | _ => none)
      (match o.compare with
        | OptField.jsFunction f => f
        | _ => referenitalEquality)

/-- Errors a call of the wrapped function can surface: a host `TypeError`
(here: the reassignment of a `const` binding) or a value thrown by the
user's `fn`. -/
inductive JSError : Type where
  | typeError : String → JSError
  | thrown : JSVal → JSError
  deriving DecidableEq

/-- State a wrapper closure reads and writes across calls: its `rootNode`
and the module-global `isSystemMemoryConstrained` flag. -/
structure MemoState : Type where
  root : Node
  constrained : Bool

/-- Observable outcome of one call of the wrapped function: the returned
value or propagated error, the state after the call (unchanged when an
error propagates, since the thrown exception skips the remaining
statements of the closure body), and whether `fn` was invoked. -/
structure CallOutcome : Type where
  result : Except JSError JSVal
  state : MemoState
  invoked : Bool

/-- Lift a pure total function to the `fn` interface (a pure `fn` never
throws). -/
def pureFn (f : List JSVal → JSVal) : List JSVal → Except JSVal JSVal :=
  fun args => Except.ok (f args)

/-- The wrapper closure returned by `Function.memoize` (lines 151-170):
resolve the key path, look up; on `NO_VALUE` invoke `fn` (any throw
propagates before anything is cached); then — the source bug — in
constrained mode execute `rootNode = createNode()`, which throws
`TypeError` because `rootNode` is declared `const` on line 140; otherwise
insert and return.  A hit returns the unboxed stored value, which for a
dead weak value is `undefined` (still a hit: `undefined !== NO_VALUE`). -/
def callWrapped (L : Liveness) (elems : JSVal → List JSVal) (cfg : Config)
    (fn : List JSVal → Except JSVal JSVal) (st : MemoState)
    (args : List JSVal) : CallOutcome :=
  match getValueAt L cfg.compare (resolveKeys elems cfg args) st.root with
  | some v => CallOutcome.mk (Except.ok v) st false
  | none =>
    match fn args with
    | Except.error e => CallOutcome.mk (Except.error (JSError.thrown e)) st true
    | Except.ok value =>
      if st.constrained then
        CallOutcome.mk (Except.error (JSError.typeError "Assignment to constant variable."))
          st true
      else
        CallOutcome.mk (Except.ok value)
          (MemoState.mk
            (setValueAt L cfg.compare value (resolveKeys elems cfg args) st.root)
            st.constrained)
          true

/-- Process-wide state of the module: the `cacheInstances` registry
(addresses of the roots the registered `WeakRef`s point to, in insertion
order) and the `isSystemMemoryConstrained` flag. -/
structure GlobalState : Type where
  instances : List Nat
  constrained : Bool
  deriving DecidableEq

/-- The `forEach` body of `flushCaches` (lines 40-49).  For a dead entry,
`cacheInstances.delete(cacheInstance)` deletes the *dereferenced* value
(`undefined`) from a set that holds `WeakRef`s — a no-op.  For a live
entry the source executes `cacheInstance = createNode()`, reassigning a
binding declared `const` two lines above: this throws
`TypeError: Assignment to constant variable.` and never writes to any
node, so the registry and every cache are left untouched. -/
def flushLoop (L : Liveness) : List Nat → Except JSError Unit
  | [] => Except.ok ()
  | a :: rest =>
    if L a then Except.error (JSError.typeError "Assignment to constant variable.")
    else flushLoop L rest

/-- The `MemoryObserver` callback (lines 30-38): compute
`shouldBeConstrained = usedJSHeapSize / jsHeapSizeLimit >= 0.8` (stated
rationally: `5 * used >= 4 * limit`), call `flushCaches()` on a rising
edge, then set the flag.  When `flushCaches` throws, the flag assignment
on line 36 is never reached, so the state is returned unchanged inside
the error. -/
def memoryObserverCallback (L : Liveness) (gs : GlobalState)
    (usedJSHeapSize jsHeapSizeLimit : Nat) : Except JSError GlobalState :=
  let shouldBeConstrained : Bool := 4 * jsHeapSizeLimit ≤ 5 * usedJSHeapSize
  if shouldBeConstrained && !gs.constrained then
    match flushLoop L gs.instances with
    | Except.error e => Except.error e
    | Except.ok _ => Except.ok (GlobalState.mk gs.instances shouldBeConstrained)
  else Except.ok (GlobalState.mk gs.instances shouldBeConstrained)

/-- A parity comparator on numbers (an equivalence relation), used to
exhibit that argument-wise comparability does not carry over to hashed
keys. -/
def cmpParity (a b : JSVal) : Bool :=
  match a, b with
  | JSVal.num m, JSVal.num n => m % 2 == n % 2
  | x, y => x == y

/-- A concrete user `hash` that maps the argument lists `[1]` and `[3]`
(parity-equal argument tuples) to the parity-distinct keys `2` and `3`. -/
def oddHash (args : List JSVal) : JSVal :=
  match args with
  | [JSVal.num 1] => JSVal.num 2
  | _ => JSVal.num 3

/-- Configuration with `hash = oddHash` and `compare = cmpParity`. -/
def parityHashConfig : Config := Config.mk (some oddHash) none cmpParity

theorem derefSlot_boxJS (v : JSVal) : derefSlot allLive (boxJS v) = v := by
  cases v <;> rfl

theorem boxJS_spec (w : JSVal) :
    (∃ a, w = JSVal.obj a ∧ boxJS w = Slot.weak a) ∨
      (isNonNullObject w = false ∧ boxJS w = Slot.prim w) := by
  cases w with
  | obj a => exact Or.inl ⟨a, rfl, rfl⟩
  | undefined => exact Or.inr ⟨rfl, rfl⟩
  | null => exact Or.inr ⟨rfl, rfl⟩
  | bool b => exact Or.inr ⟨rfl, rfl⟩
  | num n => exact Or.inr ⟨rfl, rfl⟩
  | str s => exact Or.inr ⟨rfl, rfl⟩
  | func a => exact Or.inr ⟨rfl, rfl⟩

theorem replaceFirst_none_iff (L : Liveness) (cmp : JSVal → JSVal → Bool)
    (key : JSVal) (f : Node → Node) (c : List (Slot × Node)) :
    replaceFirst L cmp key f c = none ↔ findChild L cmp key c = none := by
  induction c with
  | nil => simp [replaceFirst, findChild]
  | cons e rest ih =>
    obtain ⟨s, n⟩ := e
    by_cases hc : cmp (derefSlot L s) key = true
    · simp [replaceFirst, findChild, hc]
    · simp [replaceFirst, findChild, hc, ih]

theorem findChild_replaceFirst (L : Liveness) (cmp : JSVal → JSVal → Bool)
    (key : JSVal) (f : Node → Node) :
    ∀ (c c2 : List (Slot × Node)), replaceFirst L cmp key f c = some c2 →
      ∃ m, findChild L cmp key c = some m ∧ findChild L cmp key c2 = some (f m) := by
  intro c
  induction c with
  | nil => intro c2 h; simp [replaceFirst] at h
  | cons e rest ih =>
    obtain ⟨s, n⟩ := e
    intro c2 h
    by_cases hc : cmp (derefSlot L s) key = true
    · simp [replaceFirst, hc] at h
      subst h
      exact ⟨n, by simp [findChild, hc], by simp [findChild, hc]⟩
    · simp [replaceFirst, hc] at h
      obtain ⟨r, hr, hc2⟩ := h
      subst hc2
      obtain ⟨m, hm1, hm2⟩ := ih r hr
      exact ⟨m, by simp [findChild, hc, hm1], by simp [findChild, hc, hm2]⟩

theorem findChild_append (L : Liveness) (cmp : JSVal → JSVal → Bool) (key : JSVal)
    (c1 c2 : List (Slot × Node)) (h : findChild L cmp key c1 = none) :
    findChild L cmp key (c1 ++ c2) = findChild L cmp key c2 := by
  induction c1 with
  | nil => rfl
  | cons e rest ih =>
    obtain ⟨s, n⟩ := e
    by_cases hc : cmp (derefSlot L s) key = true
    · simp [findChild, hc] at h
    · simp [findChild, hc] at h ⊢
      exact ih h

theorem getValueAt_setValueAt (cmp : JSVal → JSVal → Bool) (v : JSVal) :
    ∀ (K : List JSVal), (∀ k ∈ K, cmp k k = true) →
      ∀ (n : Node), getValueAt allLive cmp K (setValueAt allLive cmp v K n) = some v := by
  intro K
  induction K with
  | nil =>
    intro _ n
    simp [setValueAt, getValueAt, Node.value, derefSlot_boxJS]
  | cons k ks ih =>
    intro hrefl n
    obtain ⟨c, val⟩ := n
    have hk : cmp k k = true := hrefl k (List.mem_cons_self k ks)
    have hks : ∀ k2 ∈ ks, cmp k2 k2 = true :=
      fun k2 hm => hrefl k2 (List.mem_cons_of_mem k hm)
    cases hrep : replaceFirst allLive cmp k (setValueAt allLive cmp v ks) c with
    | some c2 =>
      obtain ⟨m, hm1, hm2⟩ :=
        findChild_replaceFirst allLive cmp k (setValueAt allLive cmp v ks) c c2 hrep
      simp [setValueAt, Node.cache, hrep, getValueAt, getNode, hm2, ih hks]
    | none =>
      have hnone : findChild allLive cmp k c = none :=
        (replaceFirst_none_iff allLive cmp k (setValueAt allLive cmp v ks) c).mp hrep
      simp [setValueAt, Node.cache, hrep, getValueAt, getNode,
        findChild_append allLive cmp k c _ hnone, findChild, derefSlot_boxJS, hk, ih hks]

/-- Claim C1, counterexample.  The claim as stated is false on the code in
two ways.  First, argument tuples that are pairwise identical under the
configured `compare` need not produce comparable *keys* once `hash` is
configured: with `compare = cmpParity` (an equivalence) and
`hash = oddHash`, the tuples `[1]` and `[3]` are pairwise identical
(`cmpParity 1 3 = true`), yet the two consecutive calls both invoke `fn`
(`invoked = true` twice), because the hashed keys `2` and `3` are not
parity-equal.  Second, even with literally identical arguments and the
default configuration, while the constrained flag is set both calls
invoke `fn` (each call misses, invokes, and then throws on the `const`
reassignment), so `fn` runs twice. -/
theorem c1_counterexample :
    cmpParity (JSVal.num 1) (JSVal.num 3) = true ∧
    (callWrapped allLive (fun _ => []) parityHashConfig (pureFn (fun _ => JSVal.num 0))
      (MemoState.mk createNode false) [JSVal.num 1]).invoked = true ∧
    (callWrapped allLive (fun _ => []) parityHashConfig (pureFn (fun _ => JSVal.num 0))
      (callWrapped allLive (fun _ => []) parityHashConfig (pureFn (fun _ => JSVal.num 0))
        (MemoState.mk createNode false) [JSVal.num 1]).state [JSVal.num 3]).invoked = true ∧
    referenitalEquality (JSVal.num 1) (JSVal.num 1) = true ∧
    (callWrapped allLive (fun _ => []) defaultConfig (pureFn (fun _ => JSVal.num 0))
      (MemoState.mk createNode true) [JSVal.num 1]).invoked = true ∧
    (callWrapped allLive (fun _ => []) defaultConfig (pureFn (fun _ => JSVal.num 0))
      (callWrapped allLive (fun _ => []) defaultConfig (pureFn (fun _ => JSVal.num 0))
        (MemoState.mk createNode true) [JSVal.num 1]).state [JSVal.num 1]).invoked = true :=
  ⟨rfl, rfl, rfl, rfl, rfl, rfl⟩

/-- Claim C1, amended: for a pure `fn`, two consecutive calls of the
wrapped function in normal (non-constrained) mode whose *resolved key
paths* are identical, with the configured `compare` reflexive on those
keys (as the default identity comparator is), invoke `fn` at most once —
the second call does not invoke `fn` and returns the first call's stored
result.  Reclamation is absent (`allLive`), matching the claim's appeal
to the stored result. -/
theorem c1_amended (elems : JSVal → List JSVal) (cfg : Config)
    (f : List JSVal → JSVal) (st : MemoState) (args1 args2 : List JSVal)
    (hmode : st.constrained = false)
    (hkeys : resolveKeys elems cfg args2 = resolveKeys elems cfg args1)
    (hrefl : ∀ k ∈ resolveKeys elems cfg args1, cfg.compare k k = true) :
    (callWrapped allLive elems cfg (pureFn f)
      (callWrapped allLive elems cfg (pureFn f) st args1).state args2).invoked = false ∧
    (callWrapped allLive elems cfg (pureFn f)
      (callWrapped allLive elems cfg (pureFn f) st args1).state args2).result =
      (callWrapped allLive elems cfg (pureFn f) st args1).result := by
  cases hlook : getValueAt allLive cfg.compare (resolveKeys elems cfg args1) st.root with
  | some v =>
    have h1 : callWrapped allLive elems cfg (pureFn f) st args1 =
        CallOutcome.mk (Except.ok v) st false := by
      simp [callWrapped, hlook]
    rw [h1]
    have h2 : callWrapped allLive elems cfg (pureFn f) st args2 =
        CallOutcome.mk (Except.ok v) st false := by
      simp [callWrapped, hkeys, hlook]
    simp [h2]
  | none =>
    have h1 : callWrapped allLive elems cfg (pureFn f) st args1 =
        CallOutcome.mk (Except.ok (f args1))
          (MemoState.mk (setValueAt allLive cfg.compare (f args1)
            (resolveKeys elems cfg args1) st.root) false) true := by
      simp [callWrapped, hlook, pureFn, hmode]
    rw [h1]
    have h2 : getValueAt allLive cfg.compare (resolveKeys elems cfg args1)
        (setValueAt allLive cfg.compare (f args1) (resolveKeys elems cfg args1) st.root) =
        some (f args1) :=
      getValueAt_setValueAt cfg.compare (f args1) (resolveKeys elems cfg args1) hrefl st.root
    simp [callWrapped, hkeys, h2]

/-- Claim C1, witness: the amended theorem applied at a concrete input —
default configuration, fresh wrapper, two calls with argument `1`. -/
theorem c1_witness :
    (MemoState.mk createNode false).constrained = false ∧
    resolveKeys (fun _ => []) defaultConfig [JSVal.num 1] =
      resolveKeys (fun _ => []) defaultConfig [JSVal.num 1] ∧
    ((callWrapped allLive (fun _ => []) defaultConfig (pureFn (fun _ => JSVal.num 5))
      (callWrapped allLive (fun _ => []) defaultConfig (pureFn (fun _ => JSVal.num 5))
        (MemoState.mk createNode false) [JSVal.num 1]).state [JSVal.num 1]).invoked = false ∧
    (callWrapped allLive (fun _ => []) defaultConfig (pureFn (fun _ => JSVal.num 5))
      (callWrapped allLive (fun _ => []) defaultConfig (pureFn (fun _ => JSVal.num 5))
        (MemoState.mk createNode false) [JSVal.num 1]).state [JSVal.num 1]).result =
      (callWrapped allLive (fun _ => []) defaultConfig (pureFn (fun _ => JSVal.num 5))
        (MemoState.mk createNode false) [JSVal.num 1]).result) :=
  ⟨rfl, rfl,
    c1_amended (fun _ => []) defaultConfig (fun _ => JSVal.num 5)
      (MemoState.mk createNode false) [JSVal.num 1] [JSVal.num 1] rfl rfl
      (by decide)⟩

/-- Claim C2: key-path resolution precedence of the wrapper
(polyfill.js lines 152-159).  With both `hash` and `select` the key path
is the single element `hash(select(...args))` (`hash` receives the one
value `select` returned); with only `hash` it is `[hash(...args)]`; with
only `select` it is the element sequence of the value `select` returned,
one tree level per element; with neither it is the raw argument list,
one tree level per argument. -/
theorem c2_key_resolution (elems : JSVal → List JSVal)
    (h : List JSVal → JSVal) (s : List JSVal → JSVal)
    (cmp : JSVal → JSVal → Bool) (args : List JSVal) :
    resolveKeys elems (Config.mk (some h) (some s) cmp) args = [h [s args]] ∧
    resolveKeys elems (Config.mk (some h) none cmp) args = [h args] ∧
    resolveKeys elems (Config.mk none (some s) cmp) args = elems (s args) ∧
    resolveKeys elems (Config.mk none none cmp) args = args :=
  ⟨rfl, rfl, rfl, rfl⟩

/-- Claim C3: the constrained-mode insertion is unreachable — `rootNode`
is declared `const` (polyfill.js line 140), so the reset on line 165
throws `TypeError: Assignment to constant variable.` on the first cache
miss while the flag is set.  Nothing is inserted, the root is unchanged,
and the caller observes an error, contradicting the claim that this
policy is invisible to callers. -/
theorem c3_constrained_mode_throws :
    callWrapped allLive (fun _ => []) defaultConfig (pureFn (fun _ => JSVal.num 5))
      (MemoState.mk createNode true) [JSVal.num 1] =
    CallOutcome.mk (Except.error (JSError.typeError "Assignment to constant variable."))
      (MemoState.mk createNode true) true := rfl

/-- Claim C4: the rising-edge flush is broken.  With one live root in the
registry and a sample of `used = 9`, `limit = 10` (ratio 0.9 ≥ 0.8,
previous mode normal), the `MemoryObserver` callback throws the
`TypeError` raised inside `flushCaches` when it reassigns the
`const`-declared dereferenced instance; no root is replaced (the
source's assignment would in any case only rebind a local variable, not
the cached tree), and a wrapper whose root holds the entry
`"k" ↦ 7` still *hits* on the next lookup instead of missing. -/
theorem c4_flush_throws_and_cache_survives :
    memoryObserverCallback (fun a => a == 0) (GlobalState.mk [0] false) 9 10 =
      Except.error (JSError.typeError "Assignment to constant variable.") ∧
    (callWrapped allLive (fun _ => []) defaultConfig (pureFn (fun _ => JSVal.num 99))
      (MemoState.mk
        (Node.mk [(Slot.prim (JSVal.str "k"), Node.mk [] (some (Slot.prim (JSVal.num 7))))] none)
        false)
      [JSVal.str "k"]).result = Except.ok (JSVal.num 7) ∧
    (callWrapped allLive (fun _ => []) defaultConfig (pureFn (fun _ => JSVal.num 99))
      (MemoState.mk
        (Node.mk [(Slot.prim (JSVal.str "k"), Node.mk [] (some (Slot.prim (JSVal.num 7))))] none)
        false)
      [JSVal.str "k"]).invoked = false :=
  ⟨rfl, rfl, rfl⟩

/-- Claim C5: a reclaimed weak-handled stored value is *not* treated as a
miss.  With the leaf value slot holding a dead `WeakRef` (address 5,
liveness all-false), `getValueAt` dereferences it to `undefined`, which
is different from the `NO_VALUE` sentinel, so the wrapper takes the hit
path: it returns `undefined` without re-invoking `fn` (which would have
returned `99`).  The claim (and the spec) say this lookup must be a MISS
that re-invokes `fn`. -/
theorem c5_dead_value_is_a_hit :
    callWrapped (fun _ => false) (fun _ => []) defaultConfig (pureFn (fun _ => JSVal.num 99))
      (MemoState.mk
        (Node.mk [(Slot.prim (JSVal.str "k"), Node.mk [] (some (Slot.weak 5)))] none) false)
      [JSVal.str "k"] =
    CallOutcome.mk (Except.ok JSVal.undefined)
      (MemoState.mk
        (Node.mk [(Slot.prim (JSVal.str "k"), Node.mk [] (some (Slot.weak 5)))] none) false)
      false := rfl

/-- Claim C6: on a cache miss, an error thrown by `fn` propagates
unchanged, nothing is inserted for that key path (the state is returned
untouched), and the next call with the same arguments invokes `fn` again
and propagates the same error — no error and no `undefined` is cached. -/
theorem c6_errors_not_cached (elems : JSVal → List JSVal) (cfg : Config)
    (fn : List JSVal → Except JSVal JSVal) (st : MemoState) (args : List JSVal) (e : JSVal)
    (hmiss : getValueAt allLive cfg.compare (resolveKeys elems cfg args) st.root = none)
    (hthrow : fn args = Except.error e) :
    callWrapped allLive elems cfg fn st args =
      CallOutcome.mk (Except.error (JSError.thrown e)) st true ∧
    (callWrapped allLive elems cfg fn
      (callWrapped allLive elems cfg fn st args).state args).result =
      Except.error (JSError.thrown e) ∧
    (callWrapped allLive elems cfg fn
      (callWrapped allLive elems cfg fn st args).state args).invoked = true := by
  have h1 : callWrapped allLive elems cfg fn st args =
      CallOutcome.mk (Except.error (JSError.thrown e)) st true := by
    simp [callWrapped, hmiss, hthrow]
  refine ⟨h1, ?_, ?_⟩ <;> rw [h1] <;> simp [callWrapped, hmiss, hthrow]

/-- Claim C6, witness: the theorem applied to a throwing `fn` at the
concrete argument `1` on a fresh wrapper. -/
theorem c6_witness :
    getValueAt allLive defaultConfig.compare
      (resolveKeys (fun _ => []) defaultConfig [JSVal.num 1]) createNode = none ∧
    (fun _ => (Except.error (JSVal.str "boom") : Except JSVal JSVal)) [JSVal.num 1] =
      Except.error (JSVal.str "boom") ∧
    callWrapped allLive (fun _ => []) defaultConfig
      (fun _ => Except.error (JSVal.str "boom")) (MemoState.mk createNode false) [JSVal.num 1] =
      CallOutcome.mk (Except.error (JSError.thrown (JSVal.str "boom")))
        (MemoState.mk createNode false) true :=
  ⟨rfl, rfl,
    (c6_errors_not_cached (fun _ => []) defaultConfig
      (fun _ => Except.error (JSVal.str "boom")) (MemoState.mk createNode false)
      [JSVal.num 1] (JSVal.str "boom") rfl rfl).1⟩

/-- Claim C7: a stored key whose weak handle is dead *can* match a probe
key.  `getNode` dereferences a dead `WeakRef` to `undefined` and passes
it to `compare`; under the default identity comparator,
`compare(undefined, undefined)` is true, so a lookup probing the key
`undefined` matches the dead entry (address 0 reclaimed) and descends
into its stale branch — contradicting the claimed invariant that a
reclaimed key never matches any probe key. -/
theorem c7_dead_key_matches_undefined :
    (fun _ => false : Liveness) 0 = false ∧
    getNode (fun _ => false)
      (Node.mk [(Slot.weak 0, Node.mk [] (some (Slot.prim (JSVal.num 1))))] none)
      JSVal.undefined referenitalEquality =
      some (Node.mk [] (some (Slot.prim (JSVal.num 1)))) :=
  ⟨rfl, rfl⟩

/-- Claim C8, counterexample: functions are non-primitive, but
`isNonNullObject` tests `typeof === "object"`, so a function-typed key
and a function-typed result are both stored *directly* (strongly), not
through a weak handle. -/
theorem c8_counterexample :
    isPrimitive (JSVal.func 7) = false ∧
    isPrimitive (JSVal.func 8) = false ∧
    setValueAt allLive referenitalEquality (JSVal.func 8) [JSVal.func 7] createNode =
      Node.mk [(Slot.prim (JSVal.func 7), Node.mk [] (some (Slot.prim (JSVal.func 8))))] none :=
  ⟨rfl, rfl, rfl⟩

/-- Claim C8, amended: in every insertion, a key or result that is a
non-null object (in the `typeof === "object"` sense) is wrapped in a
weak handle, and every other value — primitives *and* functions — is
stored directly. -/
theorem c8_amended (k v : JSVal) :
    setValueAt allLive referenitalEquality v [k] createNode =
      Node.mk [(boxJS k, Node.mk [] (some (boxJS v)))] none ∧
    ((∃ a, k = JSVal.obj a ∧ boxJS k = Slot.weak a) ∨
      (isNonNullObject k = false ∧ boxJS k = Slot.prim k)) ∧
    ((∃ a, v = JSVal.obj a ∧ boxJS v = Slot.weak a) ∨
      (isNonNullObject v = false ∧ boxJS v = Slot.prim v)) :=
  ⟨rfl, boxJS_spec k, boxJS_spec v⟩

/-- Claim C9: a non-function supplied as `hash`, `select` or `compare` is
treated as absent — the parsed configuration falls back to the default
for that option (no `hash`, no `select`, identity `compare`) — and the
parse is a total function (the source body of `Function.memoize` has no
throw path), so memoization is not aborted. -/
theorem c9_nonfunction_options_ignored (o : RawOptions) (v1 v2 v3 : JSVal) :
    (o.hash = OptField.notAFunction v1 → (memoizeConfig (some o)).hash = none) ∧
    (o.select = OptField.notAFunction v2 → (memoizeConfig (some o)).select = none) ∧
    (o.compare = OptField.notAFunction v3 →
      (memoizeConfig (some o)).compare = referenitalEquality) := by
  obtain ⟨oh, os, oc⟩ := o
  refine ⟨fun h => ?_, fun h => ?_, fun h => ?_⟩
  · have h2 : oh = OptField.notAFunction v1 := h
    subst h2
    rfl
  · have h2 : os = OptField.notAFunction v2 := h
    subst h2
    rfl
  · have h2 : oc = OptField.notAFunction v3 := h
    subst h2
    rfl

/-- Claim C9, witness: an options object supplying a number, a string and
`null` where the three functions are expected parses to the default
configuration. -/
theorem c9_witness :
    (RawOptions.mk (OptField.notAFunction (JSVal.num 1))
      (OptField.notAFunction (JSVal.str "x")) (OptField.notAFunction JSVal.null)).hash =
      OptField.notAFunction (JSVal.num 1) ∧
    (memoizeConfig (some (RawOptions.mk (OptField.notAFunction (JSVal.num 1))
      (OptField.notAFunction (JSVal.str "x")) (OptField.notAFunction JSVal.null)))).hash = none ∧
    (memoizeConfig (some (RawOptions.mk (OptField.notAFunction (JSVal.num 1))
      (OptField.notAFunction (JSVal.str "x")) (OptField.notAFunction JSVal.null)))).select = none ∧
    (memoizeConfig (some (RawOptions.mk (OptField.notAFunction (JSVal.num 1))
      (OptField.notAFunction (JSVal.str "x"))
      (OptField.notAFunction JSVal.null)))).compare = referenitalEquality := by
  refine ⟨rfl, ?_, ?_, ?_⟩
  · exact (c9_nonfunction_options_ignored
      (RawOptions.mk (OptField.notAFunction (JSVal.num 1))
        (OptField.notAFunction (JSVal.str "x")) (OptField.notAFunction JSVal.null))
      (JSVal.num 1) (JSVal.str "x") JSVal.null).1 rfl
  · exact (c9_nonfunction_options_ignored
      (RawOptions.mk (OptField.notAFunction (JSVal.num 1))
        (OptField.notAFunction (JSVal.str "x")) (OptField.notAFunction JSVal.null))
      (JSVal.num 1) (JSVal.str "x") JSVal.null).2.1 rfl
  · exact (c9_nonfunction_options_ignored
      (RawOptions.mk (OptField.notAFunction (JSVal.num 1))
        (OptField.notAFunction (JSVal.str "x")) (OptField.notAFunction JSVal.null))
      (JSVal.num 1) (JSVal.str "x") JSVal.null).2.2 rfl

/-- Claim C10: a computed `undefined` is cached like any other primitive.
On a miss in normal mode where the pure `fn` returns `undefined`, the
first call invokes `fn` and stores `undefined` directly; because the
empty value slot is the private `NO_VALUE` sentinel (modelled `none`)
and a stored `undefined` is `some`, the second call with the same
key path is a hit that returns `undefined` without invoking `fn`. -/
theorem c10_undefined_is_cached (elems : JSVal → List JSVal) (cfg : Config)
    (f : List JSVal → JSVal) (st : MemoState) (args : List JSVal)
    (hmode : st.constrained = false)
    (hmiss : getValueAt allLive cfg.compare (resolveKeys elems cfg args) st.root = none)
    (hundef : f args = JSVal.undefined)
    (hrefl : ∀ k ∈ resolveKeys elems cfg args, cfg.compare k k = true) :
    (callWrapped allLive elems cfg (pureFn f) st args).invoked = true ∧
    (callWrapped allLive elems cfg (pureFn f) st args).result = Except.ok JSVal.undefined ∧
    (callWrapped allLive elems cfg (pureFn f)
      (callWrapped allLive elems cfg (pureFn f) st args).state args).invoked = false ∧
    (callWrapped allLive elems cfg (pureFn f)
      (callWrapped allLive elems cfg (pureFn f) st args).state args).result =
      Except.ok JSVal.undefined := by
  have h1 : callWrapped allLive elems cfg (pureFn f) st args =
      CallOutcome.mk (Except.ok JSVal.undefined)
        (MemoState.mk (setValueAt allLive cfg.compare JSVal.undefined
          (resolveKeys elems cfg args) st.root) false) true := by
    simp [callWrapped, hmiss, pureFn, hundef, hmode]
  have h2 : getValueAt allLive cfg.compare (resolveKeys elems cfg args)
      (setValueAt allLive cfg.compare JSVal.undefined (resolveKeys elems cfg args) st.root) =
      some JSVal.undefined :=
    getValueAt_setValueAt cfg.compare JSVal.undefined (resolveKeys elems cfg args) hrefl st.root
  rw [h1]
  refine ⟨rfl, rfl, ?_, ?_⟩ <;> simp [callWrapped, h2]

/-- Claim C10, witness: the theorem applied to the constant-`undefined`
function at argument `1` on a fresh wrapper with the default
configuration. -/
theorem c10_witness :
    (MemoState.mk createNode false).constrained = false ∧
    getValueAt allLive defaultConfig.compare
      (resolveKeys (fun _ => []) defaultConfig [JSVal.num 1]) createNode = none ∧
    (fun _ => JSVal.undefined : List JSVal → JSVal) [JSVal.num 1] = JSVal.undefined ∧
    ((callWrapped allLive (fun _ => []) defaultConfig (pureFn (fun _ => JSVal.undefined))
      (callWrapped allLive (fun _ => []) defaultConfig (pureFn (fun _ => JSVal.undefined))
        (MemoState.mk createNode false) [JSVal.num 1]).state [JSVal.num 1]).invoked = false ∧
    (callWrapped allLive (fun _ => []) defaultConfig (pureFn (fun _ => JSVal.undefined))
      (callWrapped allLive (fun _ => []) defaultConfig (pureFn (fun _ => JSVal.undefined))
        (MemoState.mk createNode false) [JSVal.num 1]).state [JSVal.num 1]).result =
      Except.ok JSVal.undefined) := by
  have h := c10_undefined_is_cached (fun _ => []) defaultConfig (fun _ => JSVal.undefined)
    (MemoState.mk createNode false) [JSVal.num 1] rfl rfl rfl (by decide)
  exact ⟨rfl, rfl, rfl, h.2.2.1, h.2.2.2⟩

end Memoize
